import Mathlib

/-
  Verification development for the HSP "Cavernous" delay/reverb pedal sketch
  (examples/HSP_1_BasicPassthrough, second document: HSP_Cavernous.ino v1.0.5).

  The C++ source processes 32-bit floats; this embedding idealizes float
  arithmetic as exact real arithmetic (the standard shallow-embedding choice,
  also the reading under which the spec's formulas are stated).  Circular
  buffers are modelled as total functions from indices to reals together with
  the integer write cursor, exactly as in the source; the source's
  `while (i < 0) i += N` wrap loops are embedded by their closed forms
  (documented at `wrapPos` and `wrapNegInt`).
-/

noncomputable section

/-! ## User tuning panel constants (from the source's USER TUNING PANEL) -/

def tUseTailsBypass : Bool := true
def tTS4_WarmDown : Bool := true
def tBrightSideDeepensDelayMod : Bool := true
def tClampWetMix : Bool := true

def tDelayMinMs : ℝ := 50
def tDelayMaxMs : ℝ := 650
def tModLightMs : ℝ := 2
def tModDeepMs : ℝ := 8
def tModRateMinHz : ℝ := 0.05
def tModRateMaxHz : ℝ := 6
def tHoldFeedback : ℝ := 0.995
def tRepeatsCurveExp : ℝ := 2
def tRepeatsMax : ℝ := 0.98
def tFbLPF_MinHz : ℝ := 1200
def tFbLPF_MaxHz : ℝ := 5500

def tPreDelayMs : ℝ := 20
def tRT60_MinSec : ℝ := 0.4
def tRT60_MaxSec : ℝ := 12
def tWarmCutHz : ℝ := 3500
def tBrightCutHz : ℝ := 8000
def tTremMinHz : ℝ := 0.5
def tTremMaxHz : ℝ := 8
def tTremDepth : ℝ := 0.5
def tChorusMinHz : ℝ := 0.1
def tChorusMaxHz : ℝ := 2.5
def tChorusDepth : ℝ := 0.003
def tShimmerHPF_Hz : ℝ := 2000
def tShimmerMax : ℝ := 0.8
def tShimmerMode2Scale : ℝ := 0.7
def tShimmerMode3Scale : ℝ := 1

def tSoftLimiterKnee : ℝ := 0.98
def kSR : ℝ := 48000

/-! ## Small helpers (source: clampf, expMap01, softLimit) -/

def clampf (v lo hi : ℝ) : ℝ := if v < lo then lo else if v > hi then hi else v

/-- Source: `expMap01(x, minv, maxv) = minv * powf(maxv / minv, clampf(x,0,1))`. -/
def expMap01 (x minv maxv : ℝ) : ℝ := minv * (maxv / minv) ^ (clampf x 0 1)

/-- Source: `softLimit(x) = tanhf(k * x) / tanhf(k * tSoftLimiterKnee)` with k = 3. -/
def softLimit (x : ℝ) : ℝ := Real.tanh (3 * x) / Real.tanh (3 * tSoftLimiterKnee)

/-! ## One-pole low-pass filter (source: struct HSP_OnePoleLPF) -/

structure HSP_OnePoleLPF where
  a : ℝ
  z : ℝ

/-- Source: `a = 1 - expf(-2 * 3.14159265359 * hz / kSR)`. -/
def HSP_OnePoleLPF.setCutoff (f : HSP_OnePoleLPF) (hz : ℝ) : HSP_OnePoleLPF :=
  { f with a := 1 - Real.exp (-2 * 3.14159265359 * hz / kSR) }

/-- Source: `z += a * (x - z); return z;` — returns the updated filter and output. -/
def HSP_OnePoleLPF.process (f : HSP_OnePoleLPF) (x : ℝ) : HSP_OnePoleLPF × ℝ :=
  let z1 := f.z + f.a * (x - f.z)
  ({ f with z := z1 }, z1)

/-! ## Series allpass stage (source: struct HSP_Allpass) -/

structure HSP_Allpass where
  size : ℕ
  w : ℕ
  g : ℝ
  buf : ℕ → ℝ

/-- Source: `y = buf[w]; z = x + (-g)*y; buf[w] = z + g*y; ++w (wrapped); return y + g*z;`. -/
def HSP_Allpass.process (ap : HSP_Allpass) (x : ℝ) : HSP_Allpass × ℝ :=
  let y := ap.buf ap.w
  let z := x + (-ap.g) * y
  let buf1 := Function.update ap.buf ap.w (z + ap.g * y)
  let w1 := if ap.size ≤ ap.w + 1 then 0 else ap.w + 1
  ({ ap with buf := buf1, w := w1 }, y + ap.g * z)

/-! ## Feedback comb (source: struct HSP_Comb) -/

structure HSP_Comb where
  size : ℕ
  w : ℕ
  fb : ℝ
  buf : ℕ → ℝ

/-- Source: `y = buf[w]; buf[w] = x + fb*y; ++w (wrapped); return y;`. -/
def HSP_Comb.process (c : HSP_Comb) (x : ℝ) : HSP_Comb × ℝ :=
  let y := c.buf c.w
  let buf1 := Function.update c.buf c.w (x + c.fb * y)
  let w1 := if c.size ≤ c.w + 1 then 0 else c.w + 1
  ({ c with buf := buf1, w := w1 }, y)

/-! ## Fractional delay read (source: readDelayFrac) -/

/-- Source: `i0 = floorf(idx); i1 = i0 + 1; if (i1 >= size) i1 -= size;
    f = idx - i0; return buf[i0] + (buf[i1] - buf[i0]) * f;`. -/
def readDelayFrac (buf : ℤ → ℝ) (size : ℤ) (idx : ℝ) : ℝ :=
  let i0 : ℤ := ⌊idx⌋
  let i1 : ℤ := if size ≤ i0 + 1 then i0 + 1 - size else i0 + 1
  let f : ℝ := idx - (i0 : ℝ)
  buf i0 + (buf i1 - buf i0) * f

/-! ## UI state and derived parameters (source: struct UIState, struct Params) -/

structure UIState where
  p : Fin 6 → ℝ
  t : Fin 4 → Bool
  fs_hold : Bool
  fs2_now : Bool

structure Params where
  timeMs : ℝ
  repeats : ℝ
  dBlend : ℝ
  modOn : Bool
  deepMod : Bool
  modRateHz : ℝ
  rt60 : ℝ
  rBlend : ℝ
  modeBits : ℕ
  warm : Bool
  rateMorph01 : ℝ
  fbCutHz : ℝ

/-! ## Delay engine (source: gDelayBuf, gDelayW, gFbTone, gModPhase, gModInc, delayProcess) -/

/-- Source: `kDelayBufMax = (int)((tDelayMaxMs / 1000.0f) * kSR + 2.0f) + 512` (= 31714). -/
def kDelayBufMax : ℤ := ⌊(tDelayMaxMs / 1000) * kSR + 2⌋ + 512

structure DelaySt where
  buf : ℤ → ℝ
  w : ℤ
  fbTone : HSP_OnePoleLPF
  modPhase : ℝ
  modInc : ℝ

/-- Closed form of the source's `while (readIdx < 0.0f) readIdx += kDelayBufMax;`:
    for K > 0 the loop adds K to a negative x exactly ceil((-x)/K) times, the least
    number of additions making the value nonnegative; a nonnegative x is untouched. -/
def wrapPos (x K : ℝ) : ℝ := if x < 0 then x + K * (⌈(-x) / K⌉ : ℤ) else x

/-- The triangle LFO value of delayProcess: `tri = (ph < 0.5) ? (ph*4 - 1) : (3 - ph*4)`. -/
def triWave (ph : ℝ) : ℝ := if ph < 0.5 then ph * 4 - 1 else 3 - ph * 4

/-- The modulated base delay in samples computed at the top of delayProcess:
    the clamped base, plus the triangle LFO offset when modulation is on. -/
def delayBaseSamps (P : Params) (ph : ℝ) : ℝ :=
  let base := clampf (P.timeMs / 1000 * kSR) (tDelayMinMs / 1000 * kSR) (tDelayMaxMs / 1000 * kSR)
  if P.modOn then
    base + ((if P.deepMod then tModDeepMs else tModLightMs) / 1000) * kSR * triWave ph
  else base

/-- The LFO phase advance in delayProcess (only when modulation is on):
    `gModPhase += gModInc; if (gModPhase >= 1.0f) gModPhase -= 1.0f;`. -/
def delayModPhaseNext (P : Params) (ph inc : ℝ) : ℝ :=
  if P.modOn then (if 1 ≤ ph + inc then ph + inc - 1 else ph + inc) else ph

/-- Source: `readIdx = (float)gDelayW - baseSamps; while (readIdx < 0) readIdx += kDelayBufMax;`. -/
def delayReadIdx (w : ℤ) (baseSamps : ℝ) : ℝ := wrapPos ((w : ℝ) - baseSamps) (kDelayBufMax : ℝ)

/-- The feedback gain applied in delayProcess:
    `fbAmt = holdNow ? tHoldFeedback : clampf(gP.repeats, 0.0f, tRepeatsMax);`. -/
def delayFbAmt (P : Params) (holdNow : Bool) : ℝ :=
  if holdNow then tHoldFeedback else clampf P.repeats 0 tRepeatsMax

/-- Source: delayProcess(in, feedEnable, holdNow).  Returns the updated delay state
    and the (pre-feedback-filter) delayed sample d. -/
def delayProcess (P : Params) (d : DelaySt) (inp : ℝ) (feedEnable holdNow : Bool) :
    DelaySt × ℝ :=
  let baseSamps := delayBaseSamps P d.modPhase
  let modPhase1 := delayModPhaseNext P d.modPhase d.modInc
  let readIdx := delayReadIdx d.w baseSamps
  let dd := readDelayFrac d.buf kDelayBufMax readIdx
  let ft := d.fbTone.process dd
  let fbAmt := delayFbAmt P holdNow
  let writeVal := (if feedEnable then inp else 0) + fbAmt * ft.2
  let buf1 := Function.update d.buf d.w writeVal
  let w1 := if kDelayBufMax ≤ d.w + 1 then 0 else d.w + 1
  ({ buf := buf1, w := w1, fbTone := ft.1, modPhase := modPhase1, modInc := d.modInc }, dd)

/-! ## Reverb engine (source: reverbInit, reverbProcess) -/

/-- Source comb line lengths: `static const int C0 = 1557, C1 = 1617, C2 = 1491, C3 = 1422;`. -/
def combSizes : Fin 4 → ℕ := ![1557, 1617, 1491, 1422]

/-- The float-cast comb lengths used in updateDerived: `(float)combLen[i]`. -/
def combLen : Fin 4 → ℝ := ![1557, 1617, 1491, 1422]

def kAP0Len : ℕ := 225
def kAP1Len : ℕ := 556

/-- Source: pre-delay ring length `sizeof(gPreBuf)/sizeof(gPreBuf[0]) = (int)(kSR * 0.060f)`. -/
def kPreBufLen : ℤ := ⌊kSR * 0.060⌋

/-- Closed form of the source's `while (preR < 0) preR += N;` on ints: for N > 0 and
    x < 0 the loop result is the canonical residue x mod N, and a nonnegative x is
    untouched. -/
def wrapNegInt (x N : ℤ) : ℤ := if x < 0 then x % N else x

structure ReverbSt where
  combs : Fin 4 → HSP_Comb
  aps : Fin 2 → HSP_Allpass
  preBuf : ℤ → ℝ
  preW : ℤ
  preDelaySamps : ℤ
  combFb : Fin 4 → ℝ
  rvLPF : HSP_OnePoleLPF
  hpShimmer : HSP_OnePoleLPF
  tremPhase : ℝ
  tremInc : ℝ
  chorPhase : ℝ
  chorInc : ℝ
  shimAmt : ℝ
  mode : ℕ

/-- The mode-independent part of reverbProcess: pre-delay, the four parallel combs
    (each with its feedback refreshed from gCombFb), the two series allpasses, and
    the warm/dark tail low-pass.  The source's per-mode `switch` follows this. -/
def reverbTail (rv : ReverbSt) (inp : ℝ) : ReverbSt × ℝ :=
  let preR := wrapNegInt (rv.preW - rv.preDelaySamps) kPreBufLen
  let preOut := rv.preBuf preR
  let preBuf1 := Function.update rv.preBuf rv.preW inp
  let preW1 := if kPreBufLen ≤ rv.preW + 1 then 0 else rv.preW + 1
  let c0 := HSP_Comb.process { rv.combs 0 with fb := rv.combFb 0 } preOut
  let c1 := HSP_Comb.process { rv.combs 1 with fb := rv.combFb 1 } preOut
  let c2 := HSP_Comb.process { rv.combs 2 with fb := rv.combFb 2 } preOut
  let c3 := HSP_Comb.process { rv.combs 3 with fb := rv.combFb 3 } preOut
  let s0 := (c0.2 + c1.2 + c2.2 + c3.2) * 0.25
  let a0 := (rv.aps 0).process s0
  let a1 := (rv.aps 1).process a0.2
  let lp := rv.rvLPF.process a1.2
  ({ rv with combs := ![c0.1, c1.1, c2.1, c3.1], aps := ![a0.1, a1.1],
             preBuf := preBuf1, preW := preW1, rvLPF := lp.1 }, lp.2)

/-- The per-mode sweetening `switch (gMode)` at the end of reverbProcess, applied to
    the tail output s.  Note the filter state it sees is the post-tail state (in the
    mode-1 branch `gRvLPF.z` has just been updated by the tail low-pass). -/
def sweeten (rv : ReverbSt) (inp s : ℝ) : ReverbSt × ℝ :=
  if rv.mode = 0 then
    let trem := 0.5 * (1 + Real.sin (2 * 3.14159265359 * rv.tremPhase))
    let depth := clampf tTremDepth 0 1
    let s1 := s * ((1 - depth) + depth * trem)
    let tp1 := rv.tremPhase + rv.tremInc
    ({ rv with tremPhase := if 1 ≤ tp1 then tp1 - 1 else tp1 }, s1)
  else if rv.mode = 1 then
    let jitter := Real.sin (2 * 3.14159265359 * rv.chorPhase) * tChorusDepth
    let s1 := s + jitter * (s - rv.rvLPF.z) * 0.2
    let cp1 := rv.chorPhase + rv.chorInc
    ({ rv with chorPhase := if 1 ≤ cp1 then cp1 - 1 else cp1 }, s1)
  else if rv.mode = 2 ∨ rv.mode = 3 then
    let hp := rv.hpShimmer.process |inp|
    let bright := |inp| - hp.2
    ({ rv with hpShimmer := hp.1 }, s + rv.shimAmt * bright)
  else (rv, s)

/-- Source: reverbProcess(in) — the tail chain followed by the per-mode sweetening. -/
def reverbProcess (rv : ReverbSt) (inp : ℝ) : ReverbSt × ℝ :=
  let t := reverbTail rv inp
  sweeten t.1 inp t.2

/-! ## Full engine state (the sketch's globals) -/

structure St where
  ui : UIState
  P : Params
  active : Bool
  prevFS2 : Bool
  delay : DelaySt
  reverb : ReverbSt

/-! ## Control service (source: updateDerived, loop) -/

/-- Source: updateDerived() — recomputes Params and the cached engine coefficients
    from the debounced UI state.  The source's `modeBits & 0x3` is embedded as
    `% 4` (equal on the nonnegative modeBits built from two bits). -/
def updateDerived (ui : UIState) (d : DelaySt) (rv : ReverbSt) :
    Params × DelaySt × ReverbSt :=
  let timeMs := expMap01 (ui.p 0) tDelayMinMs tDelayMaxMs
  let repeats := (ui.p 1) ^ tRepeatsCurveExp * tRepeatsMax
  let dBlend := clampf (ui.p 2) 0 1
  let rt60 := expMap01 (ui.p 3) tRT60_MinSec tRT60_MaxSec
  let rBlend := clampf (ui.p 4) 0 1
  let rateMorph01 := clampf (ui.p 5) 0 1
  let modOn := ui.t 2
  let isWarm := if tTS4_WarmDown then !(ui.t 3) else ui.t 3
  let deepMod := if tBrightSideDeepensDelayMod then !isWarm else false
  let modeBits := (if ui.t 0 then 1 else 0) + (if ui.t 1 then 2 else 0)
  let modRateHz := expMap01 rateMorph01 tModRateMinHz tModRateMaxHz
  let modInc1 := if modOn then modRateHz / kSR else 0
  let fbCutHz := expMap01 (1 - ui.p 1) tFbLPF_MinHz tFbLPF_MaxHz
  let fbTone1 := d.fbTone.setCutoff fbCutHz
  let combFb1 : Fin 4 → ℝ := fun i =>
    clampf ((10 : ℝ) ^ ((-3 * combLen i) / (rt60 * kSR))) 0.3 0.97
  let rvLPF1 := rv.rvLPF.setCutoff (if isWarm then tWarmCutHz else tBrightCutHz)
  let mode1 := modeBits % 4
  let tremInc1 :=
    if mode1 = 0 then expMap01 rateMorph01 tTremMinHz tTremMaxHz / kSR
    else if mode1 = 1 then 0
    else if mode1 = 2 ∨ mode1 = 3 then 0
    else rv.tremInc
  let chorInc1 :=
    if mode1 = 0 then 0
    else if mode1 = 1 then expMap01 rateMorph01 tChorusMinHz tChorusMaxHz / kSR
    else if mode1 = 2 ∨ mode1 = 3 then 0
    else rv.chorInc
  let shimAmt1 :=
    if mode1 = 0 then 0
    else if mode1 = 1 then 0
    else if mode1 = 2 ∨ mode1 = 3 then
      tShimmerMax * (if mode1 = 3 then tShimmerMode3Scale else tShimmerMode2Scale) * rateMorph01
    else rv.shimAmt
  ( { timeMs := timeMs, repeats := repeats, dBlend := dBlend, modOn := modOn,
      deepMod := deepMod, modRateHz := modRateHz, rt60 := rt60, rBlend := rBlend,
      modeBits := modeBits, warm := isWarm, rateMorph01 := rateMorph01, fbCutHz := fbCutHz },
    { d with fbTone := fbTone1, modInc := modInc1 },
    { rv with combFb := combFb1, rvLPF := rvLPF1, mode := mode1,
              tremInc := tremInc1, chorInc := chorInc1, shimAmt := shimAmt1 } )

/-- The raw control readings consumed by one pass of the sketch's loop():
    the six (smoothed) pot values, the four toggles, and the two footswitches. -/
structure TickIn where
  p : Fin 6 → ℝ
  t : Fin 4 → Bool
  fs1 : Bool
  fs2 : Bool

/-- Source: loop() — FS2 rising edge toggles gActive; FS1 is read only when active
    (forced false when bypassed) into gUI.fs_hold; then updateDerived().  LED writes
    are outputs only and are not part of the state. -/
def loop (s : St) (inp : TickIn) : St :=
  let active1 := if inp.fs2 && !s.prevFS2 then !s.active else s.active
  let fs1_now := if active1 then inp.fs1 else false
  let ui1 : UIState := { p := inp.p, t := inp.t, fs_hold := fs1_now, fs2_now := s.ui.fs2_now }
  let upd := updateDerived ui1 s.delay s.reverb
  { ui := ui1, P := upd.1, active := active1, prevFS2 := inp.fs2,
    delay := upd.2.1, reverb := upd.2.2 }

/-! ## Audio callback (source: AudioCB) -/

/-- The wet mix gain of AudioCB:
    `mixGain = tClampWetMix ? clampf(dBlend + rBlend, 0, 1) : 1`. -/
def mixGain (dBlend rBlend : ℝ) : ℝ :=
  if tClampWetMix then clampf (dBlend + rBlend) 0 1 else 1

/-- Source: AudioCB(in, out) — one input sample to one output sample, with state. -/
def AudioCB (s : St) (inp : ℝ) : St × ℝ :=
  let feedEnable := s.active
  let holdNow := s.ui.fs_hold
  let rD := delayProcess s.P s.delay inp feedEnable holdNow
  let yDelay := rD.2
  let rR := reverbProcess s.reverb yDelay
  let yReverb := rR.2
  let wetSum := yDelay * s.P.dBlend + yReverb * s.P.rBlend
  let m := mixGain s.P.dBlend s.P.rBlend
  let yActive := inp * (1 - m) + wetSum * m
  let yBypass := if tUseTailsBypass then inp + wetSum else inp
  let y := if s.active then yActive else yBypass
  ({ s with delay := rD.1, reverb := rR.1 }, softLimit y)

/-! ## Initial state (source: setup(), reverbInit(), static initializers) -/

def initLPF : HSP_OnePoleLPF := { a := 0, z := 0 }

def reverbInitSt : ReverbSt :=
  { combs := fun i => { size := combSizes i, w := 0, fb := 0.7, buf := fun _ => 0 },
    aps := ![ { size := kAP0Len, w := 0, g := 0.5, buf := fun _ => 0 },
              { size := kAP1Len, w := 0, g := 0.5, buf := fun _ => 0 } ],
    preBuf := fun _ => 0,
    preW := 0,
    preDelaySamps := ⌊(tPreDelayMs / 1000) * kSR⌋,
    combFb := fun _ => 0.7,
    rvLPF := initLPF.setCutoff 6000,
    hpShimmer := initLPF.setCutoff tShimmerHPF_Hz,
    tremPhase := 0, tremInc := 0, chorPhase := 0, chorInc := 0,
    shimAmt := 0, mode := 0 }

def initParams : Params :=
  { timeMs := 0, repeats := 0, dBlend := 0, modOn := false, deepMod := false,
    modRateHz := 0, rt60 := 0, rBlend := 0, modeBits := 0, warm := false,
    rateMorph01 := 0, fbCutHz := 0 }

def initSt : St :=
  { ui := { p := fun _ => 0, t := fun _ => false, fs_hold := false, fs2_now := false },
    P := initParams,
    active := true,
    prevFS2 := false,
    delay := { buf := fun _ => 0, w := 0, fbTone := initLPF, modPhase := 0, modInc := 0 },
    reverb := reverbInitSt }

/-! ## Runs: interleavings of control ticks and audio samples -/

inductive Ev where
  | ctrl : TickIn → Ev
  | audio : ℝ → Ev

/-- Run a list of events (control ticks and audio samples) from a state, collecting
    the audio outputs in order. -/
def runEvents (s : St) : List Ev → St × List ℝ
  | [] => (s, [])
  | Ev.ctrl i :: es => runEvents (loop s i) es
  | Ev.audio x :: es =>
    let r := AudioCB s x
    let rest := runEvents r.1 es
    (rest.1, r.2 :: rest.2)

def setFS1 (i : TickIn) (b : Bool) : TickIn := { i with fs1 := b }

/-- Replace the hold-footswitch (FS1) reading of every control tick in an event list
    by an arbitrary boolean stream, leaving everything else unchanged. -/
def replaceFS1 (f : ℕ → Bool) : List Ev → List Ev
  | [] => []
  | Ev.ctrl i :: es => Ev.ctrl (setFS1 i (f 0)) :: replaceFS1 (fun n => f (n + 1)) es
  | Ev.audio x :: es => Ev.audio x :: replaceFS1 (fun n => f (n + 1)) es

/-- The engine stays bypassed (gActive = false) before and after every event of the
    run, tracking only the FS2 edge-toggle logic of loop(). -/
def staysBypassed : Bool → Bool → List Ev → Bool
  | a, _, [] => !a
  | a, prev, Ev.ctrl i :: es =>
    !a && staysBypassed (if i.fs2 && !prev then !a else a) i.fs2 es
  | a, prev, Ev.audio _ :: es => !a && staysBypassed a prev es

/-! ## Basic facts about the helpers -/

theorem lo_le_clampf (v lo hi : ℝ) (h : lo ≤ hi) : lo ≤ clampf v lo hi := by
  unfold clampf
  split_ifs <;> linarith

theorem clampf_le_hi (v lo hi : ℝ) (h : lo ≤ hi) : clampf v lo hi ≤ hi := by
  unfold clampf
  split_ifs <;> linarith

theorem expMap01_mem (x minv maxv : ℝ) (h0 : 0 < minv) (h1 : minv ≤ maxv) :
    minv ≤ expMap01 x minv maxv ∧ expMap01 x minv maxv ≤ maxv := by
  have hb : (1 : ℝ) ≤ maxv / minv := (one_le_div h0).mpr h1
  have hc0 : (0 : ℝ) ≤ clampf x 0 1 := lo_le_clampf x 0 1 (by norm_num)
  have hc1 : clampf x 0 1 ≤ 1 := clampf_le_hi x 0 1 (by norm_num)
  have hlo : (1 : ℝ) ≤ (maxv / minv) ^ (clampf x 0 1) := by
    have h := Real.rpow_le_rpow_of_exponent_le hb hc0
    rwa [Real.rpow_zero] at h
  have hhi : (maxv / minv) ^ (clampf x 0 1) ≤ maxv / minv := by
    have h := Real.rpow_le_rpow_of_exponent_le hb hc1
    rwa [Real.rpow_one] at h
  constructor
  · have h := mul_le_mul_of_nonneg_left hlo h0.le
    simpa [expMap01] using h
  · have h := mul_le_mul_of_nonneg_left hhi h0.le
    have h2 : minv * (maxv / minv) = maxv := by
      field_simp
    simpa [expMap01, h2] using h

theorem tanh_lt_one (x : ℝ) : Real.tanh x < 1 := by
  rw [Real.tanh_eq_sinh_div_cosh, div_lt_one (Real.cosh_pos x)]
  exact Real.sinh_lt_cosh x

theorem neg_one_lt_tanh (x : ℝ) : -1 < Real.tanh x := by
  rw [Real.tanh_eq_sinh_div_cosh, lt_div_iff (Real.cosh_pos x)]
  have h := Real.sinh_lt_cosh (-x)
  rw [Real.sinh_neg, Real.cosh_neg] at h
  linarith

theorem abs_tanh_lt_one (x : ℝ) : |Real.tanh x| < 1 :=
  abs_lt.mpr ⟨neg_one_lt_tanh x, tanh_lt_one x⟩

theorem tanh_pos_of_pos {x : ℝ} (h : 0 < x) : 0 < Real.tanh x := by
  rw [Real.tanh_eq_sinh_div_cosh]
  exact div_pos (Real.sinh_pos_iff.mpr h) (Real.cosh_pos x)

theorem half_lt_tanh_three_halves : (1 / 2 : ℝ) < Real.tanh (3 / 2) := by
  rw [Real.tanh_eq_sinh_div_cosh, lt_div_iff (Real.cosh_pos _), Real.sinh_eq, Real.cosh_eq]
  have h1 : Real.exp (3 / 2) * Real.exp (-(3 / 2)) = 1 := by
    rw [← Real.exp_add]; norm_num
  have h2 : (4 : ℝ) < Real.exp 3 := by
    have h := Real.add_one_lt_exp (x := 3) (by norm_num); linarith
  have h3 : Real.exp 3 = Real.exp (3 / 2) * Real.exp (3 / 2) := by
    rw [← Real.exp_add]; norm_num
  have h4 : 0 < Real.exp (-(3 / 2)) := Real.exp_pos _
  have h5 : 0 < Real.exp (3 / 2) := Real.exp_pos _
  nlinarith [h1, h2, h3, h4, h5]

theorem kDelayBufMax_eq : kDelayBufMax = 31714 := by
  have h : ((tDelayMaxMs / 1000) * kSR + 2 : ℝ) = ((31202 : ℤ) : ℝ) := by
    norm_num [tDelayMaxMs, kSR]
  unfold kDelayBufMax
  rw [h, Int.floor_intCast]
  norm_num

/-- The allpass stage in closed form: the value written to the buffer is exactly the
    input x (the computed z + g*y cancels), and the returned value is
    g*x + (1 - g^2) * buffered. -/
theorem allpass_process_closed (ap : HSP_Allpass) (x : ℝ) :
    (ap.process x).2 = ap.g * x + (1 - ap.g ^ 2) * ap.buf ap.w ∧
    (ap.process x).1.buf ap.w = x := by
  constructor
  · simp [HSP_Allpass.process]; ring
  · simp [HSP_Allpass.process, Function.update_same]

/-! ## Claim C2 — series allpass recursion -/

def apC2 : HSP_Allpass := { size := kAP0Len, w := 0, g := 0.5, buf := fun _ => 1 }

/-- C2: the claim states the canonical first-order allpass recursion, with return
    value -g*x + buffered and written value x + g*y.  Evaluating the code's
    HSP_Allpass.process at gain g = 0.5 (the gain the sketch uses), input x = 0 and
    buffered sample 1: the code returns 0.75 (the canonical recursion returns 1)
    and writes 0 back into the buffer (the canonical recursion writes 0.5) — the
    written value z + g*y collapses to the input x, so the stage has no feedback. -/
theorem C2_allpass_eval :
    (apC2.process 0).2 = 0.75 ∧
    (apC2.process 0).1.buf 0 = 0 ∧
    (apC2.process 0).2 ≠ -apC2.g * 0 + apC2.buf apC2.w ∧
    (apC2.process 0).1.buf apC2.w ≠ 0 + apC2.g * (-apC2.g * 0 + apC2.buf apC2.w) := by
  norm_num [HSP_Allpass.process, apC2, Function.update_same]

/-! ## Claim C3 — joint wet-mix clamping -/

/-- C3: with joint clamping enabled, the claim asserts the sum of the effective wet
    weights dBlend*mixGain + rBlend*mixGain never exceeds 1 on [0,1]^2.  At
    dBlend = rBlend = 1 the code's mixGain is clamp(2,0,1) = 1, so the effective
    wet weights sum to 2, exceeding 1. -/
theorem C3_wetmix_eval :
    mixGain 1 1 = 1 ∧
    (1 : ℝ) * mixGain 1 1 + 1 * mixGain 1 1 = 2 ∧
    ¬((1 : ℝ) * mixGain 1 1 + 1 * mixGain 1 1 ≤ 1) := by
  norm_num [mixGain, clampf, tClampWetMix]

/-! ## Claim C4 — bypass crossfade -/

/-- The effective crossfade weight of the code: AudioCB selects the active mix when
    gActive is set and the bypass mix otherwise, i.e. the weight on the active mix
    is the boolean indicator of gActive. -/
def crossfadeWeight (s : St) : ℝ := if s.active then 1 else 0

def sC4 : St := initSt

def iC4 : TickIn := { p := fun _ => 0, t := fun _ => false, fs1 := false, fs2 := true }

/-- C4 counterexample: from the active state (weight 1), a single FS2 press drops
    the weight to exactly 0 within one control tick; no one-pole smoothing constant
    in (0,1) is consistent with that step, so the weight is not smoothed. -/
theorem C4_counterexample :
    crossfadeWeight sC4 = 1 ∧
    crossfadeWeight (loop sC4 iC4) = 0 ∧
    ¬ ∃ a : ℝ, 0 < a ∧ a < 1 ∧
        crossfadeWeight (loop sC4 iC4) = (1 - a) * crossfadeWeight sC4 + a * 0 := by
  have h1 : crossfadeWeight sC4 = 1 := rfl
  have h2 : (loop sC4 iC4).active = false := rfl
  have h3 : crossfadeWeight (loop sC4 iC4) = 0 := by
    simp [crossfadeWeight, h2]
  refine ⟨h1, h3, ?_⟩
  rintro ⟨a, ha0, ha1, hEq⟩
  rw [h1, h3] at hEq
  have : a = 1 := by linarith [hEq]
  linarith

/-- C4 (amended): the active/bypassed state is a boolean toggled on FS2 rising
    edges; when the target flips from active to bypassed, the effective crossfade
    weight goes from 1 to exactly 0 at that same control tick — instantaneously,
    with no smoothing constant (bypass softness comes only from the decaying
    tails). -/
theorem C4_instant_switch (s : St) (i : TickIn)
    (hA : s.active = true) (hP : s.prevFS2 = false) (hF : i.fs2 = true) :
    crossfadeWeight s = 1 ∧ (loop s i).active = false ∧ crossfadeWeight (loop s i) = 0 := by
  have h2 : (loop s i).active = false := by
    simp [loop, hA, hP, hF]
  exact ⟨by simp [crossfadeWeight, hA], h2, by simp [crossfadeWeight, h2]⟩

theorem C4_instant_switch_witness :
    crossfadeWeight sC4 = 1 ∧ (loop sC4 iC4).active = false ∧
    crossfadeWeight (loop sC4 iC4) = 0 :=
  C4_instant_switch sC4 iC4 rfl rfl rfl

/-! ## Claim C5 — RT60-to-comb-feedback mapping -/

/-- C5: at every control tick, each comb feedback gain equals
    10^(-3 * delaySamples / (RT60 * 48000)) clamped to [0.3, 0.97], with the fixed
    comb lengths 1557, 1617, 1491, 1422, and the RT60 produced by the control
    mapping always lies in [0.4 s, 12 s]. -/
theorem C5_comb_feedback (s : St) (i : TickIn) :
    (0.4 : ℝ) ≤ (loop s i).P.rt60 ∧ (loop s i).P.rt60 ≤ 12 ∧
    ∀ j : Fin 4,
      (loop s i).reverb.combFb j =
        clampf ((10 : ℝ) ^ ((-3 * (![1557, 1617, 1491, 1422] : Fin 4 → ℝ) j) /
          ((loop s i).P.rt60 * 48000))) 0.3 0.97 := by
  have h1 : (loop s i).P.rt60 = expMap01 (i.p 3) tRT60_MinSec tRT60_MaxSec := rfl
  have h2 := expMap01_mem (i.p 3) tRT60_MinSec tRT60_MaxSec
    (by norm_num [tRT60_MinSec]) (by norm_num [tRT60_MinSec, tRT60_MaxSec])
  refine ⟨?_, ?_, ?_⟩
  · rw [h1]
    have h := h2.1
    simpa [tRT60_MinSec] using h
  · rw [h1]
    have h := h2.2
    simpa [tRT60_MaxSec] using h
  · intro j
    rfl

/-! ## Claim C7 — delay feedback gain invariant -/

/-- C7: the feedback gain applied in delayProcess is always strictly below 1: it is
    tHoldFeedback = 0.995 in hold mode and otherwise the repeats parameter clamped
    to [0, tRepeatsMax] with tRepeatsMax = 0.98. -/
theorem C7_delay_feedback_lt_one (P : Params) (h : Bool) :
    delayFbAmt P h < 1 ∧
    delayFbAmt P true = tHoldFeedback ∧
    delayFbAmt P false = clampf P.repeats 0 tRepeatsMax ∧
    clampf P.repeats 0 tRepeatsMax ≤ 0.98 ∧
    tHoldFeedback = 0.995 := by
  have hc : clampf P.repeats 0 tRepeatsMax ≤ 0.98 := by
    have h := clampf_le_hi P.repeats 0 tRepeatsMax (by norm_num [tRepeatsMax])
    simpa [tRepeatsMax] using h
  refine ⟨?_, rfl, rfl, hc, rfl⟩
  cases h
  · simp only [delayFbAmt, Bool.false_eq_true, if_false]
    linarith
  · norm_num [delayFbAmt, tHoldFeedback]

/-! ## Claim C10 — output always bounded by the soft limiter -/

theorem abs_softLimit_le (y : ℝ) : |softLimit y| ≤ 1 / Real.tanh (3 * 0.98) := by
  have hb : 0 < Real.tanh (3 * 0.98) := tanh_pos_of_pos (by norm_num)
  have h1 : |Real.tanh (3 * y)| ≤ 1 := (abs_tanh_lt_one _).le
  have h2 : softLimit y = Real.tanh (3 * y) / Real.tanh (3 * 0.98) := rfl
  rw [h2, abs_div, abs_of_pos hb]
  exact (div_le_div_right hb).mpr h1

/-- C10: every sample produced by AudioCB, on both the active and bypassed paths,
    has magnitude at most 1/tanh(3*0.98), for every input and every internal state,
    because the soft limiter is applied unconditionally. -/
theorem C10_output_bounded (s : St) (x : ℝ) :
    |(AudioCB s x).2| ≤ 1 / Real.tanh (3 * 0.98) := by
  obtain ⟨y, hy⟩ : ∃ y, (AudioCB s x).2 = softLimit y := ⟨_, rfl⟩
  rw [hy]
  exact abs_softLimit_le y

/-! ## Claim C1 — bypass round trip -/

theorem AudioCB_bypassed_eq (s : St) (x : ℝ)
    (hA : s.active = false) (hD : s.P.dBlend = 0) (hR : s.P.rBlend = 0) :
    (AudioCB s x).2 = Real.tanh (3 * x) / Real.tanh (3 * 0.98) := by
  simp [AudioCB, hA, hD, hR, tUseTailsBypass, softLimit, tSoftLimiterKnee]

def csC1 : St := { initSt with active := false }

/-- C1 (amended): when the engine is bypassed with tails enabled and both blend
    weights are 0, every output sample equals softLimit applied to the input,
    i.e. tanh(3*in)/tanh(3*0.98), for every input and every internal state; this
    differs from the input in general (for instance at input 1/2), so the round
    trip is not an exact passthrough. -/
theorem C1_bypass_softlimit (s : St) (x : ℝ)
    (hA : s.active = false) (hD : s.P.dBlend = 0) (hR : s.P.rBlend = 0) :
    (AudioCB s x).2 = Real.tanh (3 * x) / Real.tanh (3 * 0.98) :=
  AudioCB_bypassed_eq s x hA hD hR

theorem C1_bypass_softlimit_witness :
    (AudioCB csC1 1).2 = Real.tanh (3 * 1) / Real.tanh (3 * 0.98) :=
  C1_bypass_softlimit csC1 1 rfl rfl rfl

/-- C1 counterexample: in the bypassed, zero-blend configuration the output does
    not equal the input: at input 1/2 the callback returns
    tanh(1.5)/tanh(2.94), which is strictly greater than 1/2. -/
theorem C1_counterexample : (AudioCB csC1 (1 / 2)).2 ≠ (1 / 2 : ℝ) := by
  have h := AudioCB_bypassed_eq csC1 (1 / 2) rfl rfl rfl
  rw [h]
  have h1 : (1 / 2 : ℝ) < Real.tanh (3 * (1 / 2)) := by
    have h0 := half_lt_tanh_three_halves
    norm_num at h0 ⊢
    exact h0
  have h2 : Real.tanh (3 * 0.98) < 1 := tanh_lt_one _
  have h3 : 0 < Real.tanh (3 * 0.98) := tanh_pos_of_pos (by norm_num)
  intro hEq
  rw [div_eq_iff (ne_of_gt h3)] at hEq
  nlinarith [h1, h2, h3]

/-! ## Claim C8 — shimmer brightness proxy -/

theorem reverbTail_hpShimmer (rv : ReverbSt) (x : ℝ) :
    (reverbTail rv x).1.hpShimmer = rv.hpShimmer := rfl

theorem reverbTail_mode (rv : ReverbSt) (x : ℝ) :
    (reverbTail rv x).1.mode = rv.mode := rfl

theorem reverbTail_shimAmt (rv : ReverbSt) (x : ℝ) :
    (reverbTail rv x).1.shimAmt = rv.shimAmt := rfl

/-- In Shimmer and BrightShimmer modes, reverbProcess adds to the tail output the
    scaled term shimAmt * (abs of input minus the one-pole lowpass gHpShimmer
    applied to the abs of input). -/
theorem reverbProcess_shimmer (rv : ReverbSt) (x : ℝ) (h : rv.mode = 2 ∨ rv.mode = 3) :
    (reverbProcess rv x).2 =
      (reverbTail rv x).2 + rv.shimAmt * (|x| - (rv.hpShimmer.process |x|).2) := by
  rcases h with h2 | h3
  · simp [reverbProcess, sweeten, reverbTail_mode, reverbTail_hpShimmer,
      reverbTail_shimAmt, h2]
  · simp [reverbProcess, sweeten, reverbTail_mode, reverbTail_hpShimmer,
      reverbTail_shimAmt, h3]

def rvC8 : ReverbSt := { reverbInitSt with mode := 2, shimAmt := 1 }

/-- C8 (amended): in Shimmer and BrightShimmer modes the sweetener adds
    shimAmt times the brightness proxy |preReverbInput| minus a first-order
    LOWPASS of |preReverbInput| (the filter gHpShimmer is an HSP_OnePoleLPF, a
    one-pole lowpass, despite its name; subtracting it yields the highpassed
    rectified signal). -/
theorem C8_shimmer_proxy (rv : ReverbSt) (x : ℝ) (h : rv.mode = 2 ∨ rv.mode = 3) :
    (reverbProcess rv x).2 =
      (reverbTail rv x).2 + rv.shimAmt * (|x| - (rv.hpShimmer.process |x|).2) :=
  reverbProcess_shimmer rv x h

theorem C8_shimmer_proxy_witness :
    rvC8.mode = 2 ∧
    (reverbProcess rvC8 2).2 =
      (reverbTail rvC8 2).2 + rvC8.shimAmt * (|(2 : ℝ)| - (rvC8.hpShimmer.process |(2 : ℝ)|).2) :=
  ⟨rfl, C8_shimmer_proxy rvC8 2 (Or.inl rfl)⟩

/-- The spec's brightness-proxy formula literally asks for a first-order HIGHPASS
    of the rectified input; the first-order highpass complementary to the one-pole
    lowpass outputs the input minus the lowpass output.  This definition follows
    the spec's words and is compared against the code's computation. -/
def specFirstOrderHighpass (f : HSP_OnePoleLPF) (x : ℝ) : HSP_OnePoleLPF × ℝ :=
  let r := f.process x
  (r.1, x - r.2)

/-- C8 counterexample: with the shimmer filter exactly as the code initializes it
    (cutoff tShimmerHPF_Hz = 2000 Hz, zero state), shimmer mode and send amount 1,
    the value the code adds at input 1 differs from the spec's formula
    |in| - highpass(|in|): the code adds exp(-c) and the spec's formula yields
    1 - exp(-c), with c = 2*3.14159265359*2000/48000 < log 2, so they are not
    equal. -/
theorem C8_counterexample :
    (reverbProcess rvC8 1).2 ≠
      (reverbTail rvC8 1).2 +
        rvC8.shimAmt * (|(1 : ℝ)| - (specFirstOrderHighpass rvC8.hpShimmer |(1 : ℝ)|).2) := by
  rw [reverbProcess_shimmer rvC8 1 (Or.inl rfl)]
  intro hEq
  have hz : rvC8.hpShimmer.z = 0 := rfl
  have ha : rvC8.hpShimmer.a = 1 - Real.exp (-2 * 3.14159265359 * 2000 / 48000) := rfl
  have hs : rvC8.shimAmt = 1 := rfl
  have hLP : (rvC8.hpShimmer.process |(1 : ℝ)|).2 = rvC8.hpShimmer.a := by
    simp [HSP_OnePoleLPF.process, hz]
  have hHP : (specFirstOrderHighpass rvC8.hpShimmer |(1 : ℝ)|).2 = 1 - rvC8.hpShimmer.a := by
    simp [specFirstOrderHighpass, HSP_OnePoleLPF.process, hz]
  rw [hLP, hHP, hs] at hEq
  have hA : rvC8.hpShimmer.a = 1 - rvC8.hpShimmer.a := by
    have h := add_left_cancel hEq
    simpa using h.symm
  rw [ha] at hA
  have hE : Real.exp (-2 * 3.14159265359 * 2000 / 48000) = 1 / 2 := by linarith
  have hc : (-Real.log 2 : ℝ) < -2 * 3.14159265359 * 2000 / 48000 := by
    have hl := Real.log_two_gt_d9
    norm_num at hl ⊢
    linarith
  have hgt : (1 / 2 : ℝ) < Real.exp (-2 * 3.14159265359 * 2000 / 48000) := by
    have hlt := Real.exp_lt_exp.mpr hc
    rw [Real.exp_neg, Real.exp_log (by norm_num : (0 : ℝ) < 2)] at hlt
    calc (1 / 2 : ℝ) = 2⁻¹ := by norm_num
    _ < Real.exp (-2 * 3.14159265359 * 2000 / 48000) := hlt
  rw [hE] at hgt
  exact lt_irrefl _ hgt

/-! ## Claim C6 — hold gating noninterference -/

theorem staysBypassed_false (a p : Bool) (es : List Ev)
    (h : staysBypassed a p es = true) : a = false := by
  cases es with
  | nil => simpa [staysBypassed] using h
  | cons e es =>
    cases e with
    | ctrl i =>
      simp only [staysBypassed, Bool.and_eq_true, Bool.not_eq_true'] at h
      exact h.1
    | audio x =>
      simp only [staysBypassed, Bool.and_eq_true, Bool.not_eq_true'] at h
      exact h.1

theorem AudioCB_active (s : St) (x : ℝ) : (AudioCB s x).1.active = s.active := rfl

theorem AudioCB_prevFS2 (s : St) (x : ℝ) : (AudioCB s x).1.prevFS2 = s.prevFS2 := rfl

theorem loop_active (s : St) (i : TickIn) :
    (loop s i).active = (if i.fs2 && !s.prevFS2 then !s.active else s.active) := rfl

theorem loop_prevFS2 (s : St) (i : TickIn) : (loop s i).prevFS2 = i.fs2 := rfl

/-- When the post-tick active flag is false, the FS1 reading is irrelevant to the
    control tick: loop() forces fs_hold to false before it can reach the engine. -/
theorem loop_fs1_irrel (s : St) (i : TickIn) (b : Bool)
    (h : (if i.fs2 = true ∧ s.prevFS2 = false then !s.active else s.active) = false) :
    loop s (setFS1 i b) = loop s i := by
  simp [loop, setFS1, h]

/-- C6: hold gating noninterference.  Two runs from the same state that are
    identical except for the hold footswitch (FS1) readings, with the engine
    bypassed throughout, produce identical final state — in particular identical
    delay-line feedback state and delay-buffer contents — and identical output at
    every audio sample. -/
theorem C6_hold_noninterference (s : St) (es : List Ev) (f : ℕ → Bool)
    (hB : staysBypassed s.active s.prevFS2 es = true) :
    runEvents s es = runEvents s (replaceFS1 f es) := by
  revert hB
  induction es generalizing s f with
  | nil => intro hB; rfl
  | cons e es ih =>
    intro hB
    cases e with
    | ctrl i =>
      have hB2 : staysBypassed (if i.fs2 = true ∧ s.prevFS2 = false then !s.active else s.active)
          i.fs2 es = true := by
        simp only [staysBypassed, Bool.and_eq_true, Bool.not_eq_true'] at hB
        exact hB.2
      have hact : (if i.fs2 = true ∧ s.prevFS2 = false then !s.active else s.active) = false :=
        staysBypassed_false _ _ _ hB2
      have hloop : loop s (setFS1 i (f 0)) = loop s i := loop_fs1_irrel s i (f 0) hact
      have hcond : (if i.fs2 && !s.prevFS2 then !s.active else s.active)
          = (if i.fs2 = true ∧ s.prevFS2 = false then !s.active else s.active) := by
        simp only [Bool.and_eq_true, Bool.not_eq_true']
      have e1 : runEvents s (Ev.ctrl i :: es) = runEvents (loop s i) es := rfl
      have e2 : runEvents s (replaceFS1 f (Ev.ctrl i :: es))
          = runEvents (loop s (setFS1 i (f 0))) (replaceFS1 (fun n => f (n + 1)) es) := rfl
      rw [e1, e2, hloop]
      exact ih (loop s i) (fun n => f (n + 1))
        (by rw [loop_active, loop_prevFS2, hcond]; exact hB2)
    | audio x =>
      have hB2 : staysBypassed s.active s.prevFS2 es = true := by
        simp only [staysBypassed, Bool.and_eq_true, Bool.not_eq_true'] at hB
        exact hB.2
      have h3 : staysBypassed (AudioCB s x).1.active (AudioCB s x).1.prevFS2 es = true := by
        rw [AudioCB_active, AudioCB_prevFS2]; exact hB2
      have e1 : runEvents s (Ev.audio x :: es)
          = ((runEvents (AudioCB s x).1 es).1,
             (AudioCB s x).2 :: (runEvents (AudioCB s x).1 es).2) := rfl
      have e2 : runEvents s (replaceFS1 f (Ev.audio x :: es))
          = ((runEvents (AudioCB s x).1 (replaceFS1 (fun n => f (n + 1)) es)).1,
             (AudioCB s x).2 ::
               (runEvents (AudioCB s x).1 (replaceFS1 (fun n => f (n + 1)) es)).2) := rfl
      rw [e1, e2, ih (AudioCB s x).1 (fun n => f (n + 1)) h3]

def iC6 : TickIn := { p := fun _ => 0, t := fun _ => false, fs1 := false, fs2 := false }

def sC6 : St := { initSt with active := false }

def esC6 : List Ev := [Ev.ctrl iC6, Ev.audio 0]

theorem C6_hold_noninterference_witness :
    staysBypassed sC6.active sC6.prevFS2 esC6 = true ∧
    runEvents sC6 esC6 = runEvents sC6 (replaceFS1 (fun _ => true) esC6) :=
  ⟨rfl, C6_hold_noninterference sC6 esC6 (fun _ => true) rfl⟩

/-! ## Claim C9 — delay read always in bounds -/

theorem triWave_mem (ph : ℝ) (h0 : 0 ≤ ph) (h1 : ph ≤ 1) :
    -1 ≤ triWave ph ∧ triWave ph ≤ 1 := by
  unfold triWave
  split_ifs with h <;> constructor <;> linarith

theorem delayBaseSamps_mem (P : Params) (ph : ℝ) (h0 : 0 ≤ ph) (h1 : ph ≤ 1) :
    2016 ≤ delayBaseSamps P ph ∧ delayBaseSamps P ph ≤ 31584 := by
  have hc1 : (50 / 1000 * 48000 : ℝ) ≤
      clampf (P.timeMs / 1000 * 48000) (50 / 1000 * 48000) (650 / 1000 * 48000) :=
    lo_le_clampf _ _ _ (by norm_num)
  have hc2 : clampf (P.timeMs / 1000 * 48000) (50 / 1000 * 48000) (650 / 1000 * 48000) ≤
      650 / 1000 * 48000 :=
    clampf_le_hi _ _ _ (by norm_num)
  have ht := triWave_mem ph h0 h1
  simp only [delayBaseSamps, tDelayMinMs, tDelayMaxMs, tModDeepMs, tModLightMs, kSR]
  split_ifs with hm hd
  · constructor <;> nlinarith [ht.1, ht.2, hc1, hc2]
  · constructor <;> nlinarith [ht.1, ht.2, hc1, hc2]
  · constructor <;> linarith [hc1, hc2]

/-- For 0 < K and -K ≤ x < 0, the wrap loop performs exactly one addition. -/
theorem wrapPos_single (x K : ℝ) (hK : 0 < K) (hx : -K ≤ x) (hneg : x < 0) :
    wrapPos x K = x + K := by
  unfold wrapPos
  rw [if_pos hneg]
  have hceil : ⌈(-x) / K⌉ = 1 := by
    rw [Int.ceil_eq_iff]
    constructor
    · push_cast
      have h2 : (0 : ℝ) < (-x) / K := div_pos (by linarith) hK
      linarith
    · push_cast
      rw [div_le_one hK]
      linarith
  rw [hceil]
  push_cast
  ring

/-- C9 (implicit): for every write cursor in [0, kDelayBufMax), every parameter
    setting and every LFO phase in [0,1], the base back-offset computed by
    delayProcess lies in (0, kDelayBufMax - 2], the pre-wrap read index is above
    -kDelayBufMax (so the single wrap correction of the while loop suffices), the
    fractional read position handed to readDelayFrac lies in [0, kDelayBufMax),
    and both interpolation taps i0 and the wrapped i0 + 1 index the delay buffer
    in bounds. -/
theorem C9_delay_read_in_bounds (P : Params) (w : ℤ) (ph : ℝ)
    (hw0 : 0 ≤ w) (hw1 : w < kDelayBufMax) (hp0 : 0 ≤ ph) (hp1 : ph ≤ 1) :
    0 < delayBaseSamps P ph ∧
    delayBaseSamps P ph ≤ (kDelayBufMax : ℝ) - 2 ∧
    -(kDelayBufMax : ℝ) < (w : ℝ) - delayBaseSamps P ph ∧
    0 ≤ delayReadIdx w (delayBaseSamps P ph) ∧
    delayReadIdx w (delayBaseSamps P ph) < (kDelayBufMax : ℝ) ∧
    0 ≤ ⌊delayReadIdx w (delayBaseSamps P ph)⌋ ∧
    ⌊delayReadIdx w (delayBaseSamps P ph)⌋ < kDelayBufMax ∧
    0 ≤ (if kDelayBufMax ≤ ⌊delayReadIdx w (delayBaseSamps P ph)⌋ + 1
         then ⌊delayReadIdx w (delayBaseSamps P ph)⌋ + 1 - kDelayBufMax
         else ⌊delayReadIdx w (delayBaseSamps P ph)⌋ + 1) ∧
    (if kDelayBufMax ≤ ⌊delayReadIdx w (delayBaseSamps P ph)⌋ + 1
     then ⌊delayReadIdx w (delayBaseSamps P ph)⌋ + 1 - kDelayBufMax
     else ⌊delayReadIdx w (delayBaseSamps P ph)⌋ + 1) < kDelayBufMax := by
  obtain ⟨hb1, hb2⟩ := delayBaseSamps_mem P ph hp0 hp1
  have hKR : ((kDelayBufMax : ℤ) : ℝ) = 31714 := by
    rw [kDelayBufMax_eq]; norm_num
  have hw0R : (0 : ℝ) ≤ (w : ℝ) := by exact_mod_cast hw0
  have hw1R : (w : ℝ) < 31714 := by
    have h := hw1
    rw [kDelayBufMax_eq] at h
    exact_mod_cast h
  have hidx : 0 ≤ delayReadIdx w (delayBaseSamps P ph) ∧
      delayReadIdx w (delayBaseSamps P ph) < 31714 := by
    unfold delayReadIdx
    rw [hKR]
    by_cases hneg : (w : ℝ) - delayBaseSamps P ph < 0
    · rw [wrapPos_single _ _ (by norm_num) (by linarith) hneg]
      constructor <;> linarith
    · have hw : wrapPos ((w : ℝ) - delayBaseSamps P ph) 31714
          = (w : ℝ) - delayBaseSamps P ph := by
        unfold wrapPos
        rw [if_neg hneg]
      rw [hw]
      constructor <;> linarith [not_lt.mp hneg]
  have hfl0 : 0 ≤ ⌊delayReadIdx w (delayBaseSamps P ph)⌋ := Int.floor_nonneg.mpr hidx.1
  have hfl1 : ⌊delayReadIdx w (delayBaseSamps P ph)⌋ < kDelayBufMax := by
    rw [Int.floor_lt, hKR]
    exact hidx.2
  refine ⟨by linarith, by rw [hKR]; linarith, by rw [hKR]; linarith,
    hidx.1, by rw [hKR]; exact hidx.2, hfl0, hfl1, ?_, ?_⟩
  · split_ifs with h
    · omega
    · omega
  · split_ifs with h
    · omega
    · omega

theorem C9_delay_read_in_bounds_witness :
    0 < delayBaseSamps initParams 0 ∧
    delayBaseSamps initParams 0 ≤ (kDelayBufMax : ℝ) - 2 ∧
    -(kDelayBufMax : ℝ) < ((0 : ℤ) : ℝ) - delayBaseSamps initParams 0 ∧
    0 ≤ delayReadIdx 0 (delayBaseSamps initParams 0) ∧
    delayReadIdx 0 (delayBaseSamps initParams 0) < (kDelayBufMax : ℝ) ∧
    0 ≤ ⌊delayReadIdx 0 (delayBaseSamps initParams 0)⌋ ∧
    ⌊delayReadIdx 0 (delayBaseSamps initParams 0)⌋ < kDelayBufMax ∧
    0 ≤ (if kDelayBufMax ≤ ⌊delayReadIdx 0 (delayBaseSamps initParams 0)⌋ + 1
         then ⌊delayReadIdx 0 (delayBaseSamps initParams 0)⌋ + 1 - kDelayBufMax
         else ⌊delayReadIdx 0 (delayBaseSamps initParams 0)⌋ + 1) ∧
    (if kDelayBufMax ≤ ⌊delayReadIdx 0 (delayBaseSamps initParams 0)⌋ + 1
     then ⌊delayReadIdx 0 (delayBaseSamps initParams 0)⌋ + 1 - kDelayBufMax
     else ⌊delayReadIdx 0 (delayBaseSamps initParams 0)⌋ + 1) < kDelayBufMax :=
  C9_delay_read_in_bounds initParams 0 0 (by norm_num)
    (by norm_num [kDelayBufMax_eq]) (by norm_num) (by norm_num)
